import Mathlib

set_option maxRecDepth 8000

/-!
Verification of the managarm repository sources against its specification.

Part 1: the IP checksum
(src/servers/netserver/include/netserver/ip/checksum.cpp).

The Checksum class accumulates 16-bit big-endian words into a running
state and finalizes by an end-around-carry fold followed by a bitwise
NOT truncated to 16 bits.  The declaration of the state field lives in
checksum.hpp, which is not part of the sources; following the spec
(ones-complement sum, then NOT) the state is modelled as an unbounded
natural-number accumulator.
-/

/-- The Checksum accumulator.  Modelled from the spec: the state field is
declared in the missing checksum.hpp; the spec describes the running
ones-complement sum, so state is an unbounded natural accumulator. -/
structure Checksum where
  state : Nat
  deriving DecidableEq

namespace Checksum

/-- Embedding of void Checksum::update(uint16_t word), whose body is
state += word.  The argument is converted to uint16_t at the call
boundary, hence the mod 65536. -/
def update (c : Checksum) (word : Nat) : Checksum :=
  ⟨c.state + word % 65536⟩

/-- Memory around the buffer pointer: a partial map from byte offsets
(relative to the data pointer, possibly negative) to byte values.
Offsets outside the allocation map to none. -/
def Mem : Type := Int → Option (Fin 256)

/-- Embedding of the loop
for (; iter < end; iter += 2) update(iter[0] << 8 | iter[1]);
in Checksum::update(void *data, size_t size).  The loop is driven by
the remaining distance end - iter, which shrinks by 2 per iteration;
the loop body executes exactly when that distance is positive, and the
final iteration sees a distance of 1 or 2.  A dereference outside the
mapped memory yields none. -/
def updateLoop (data : Mem) : Nat → Int → Checksum → Option Checksum
  | 0, _, c => some c
  | 1, iter, c =>
    match data iter, data (iter + 1) with
    | some b0, some b1 => some (update c (b0.val * 256 + b1.val))
    | _, _ => none
  | n + 2, iter, c =>
    match data iter, data (iter + 1) with
    | some b0, some b1 => updateLoop data n (iter + 2) (update c (b0.val * 256 + b1.val))
    | _, _ => none

/-- Embedding of void Checksum::update(void *data, size_t size).
Mirrors the source: on odd size the iterator is first decremented
(iter becomes offset -1), then update(iter[size - 1] << 8) reads the
byte at offset size - 2, then the word loop runs from iter = -1 with
end = size - 1; on even size the loop runs from iter = 0 with
end = size.  In both branches the initial distance end - iter equals
size. -/
def updateBytes (c : Checksum) (data : Mem) (size : Nat) : Option Checksum :=
  if size % 2 ≠ 0 then
    match data ((size : Int) - 2) with
    | some b => updateLoop data size (-1) (update c (b.val * 256))
    | none => none
  else
    updateLoop data size 0 c

/-- Embedding of the finalize loop
while (state >> 16 != 0) state = (state >> 16) + (state & 0xffff);
on naturals: shifting right by 16 is division by 65536 and masking with
0xffff is mod 65536. -/
def foldCarry (s : Nat) : Nat :=
  if s / 65536 = 0 then s else foldCarry (s / 65536 + s % 65536)
termination_by s
decreasing_by omega

/-- Embedding of uint16_t Checksum::finalize(): fold the carries, then
return the bitwise NOT truncated to 16 bits (for x < 65536 that is
65535 - x). -/
def finalize (c : Checksum) : Nat :=
  65535 - foldCarry c.state

/-- Unfolding equation for finalize, stated at a generic checksum so the
kernel never has to reduce foldCarry at a literal argument. -/
lemma finalize_eq (c : Checksum) : finalize c = 65535 - foldCarry c.state := rfl

end Checksum

/-- A buffer of the given bytes placed at offsets 0, 1, 2, ...; all other
offsets are unmapped. -/
def bufferOf (bytes : List (Fin 256)) : Checksum.Mem :=
  fun j => if 0 ≤ j then bytes.get? j.toNat else none

/-- The checksum state accumulated over successive updates starting from
state a is a plus the plain sum of the words, provided every word fits
in 16 bits (as uint16_t arguments do). -/
lemma foldl_update_state (ws : List Nat) :
    ∀ a : Nat, (∀ w ∈ ws, w < 65536) →
      (ws.foldl Checksum.update ⟨a⟩).state = a + ws.sum := by
  induction ws with
  | nil => intro a _; simp
  | cons w ws ih =>
    intro a h
    have hw : w % 65536 = w := Nat.mod_eq_of_lt (h w (by simp))
    have hrest : ∀ x ∈ ws, x < 65536 := fun x hx => h x (by simp [hx])
    simp only [List.foldl_cons, Checksum.update, hw, List.sum_cons]
    rw [ih (a + w) hrest]
    omega

/-- The end-around-carry fold always lands below 2^16. -/
lemma foldCarry_lt (s : Nat) : Checksum.foldCarry s < 65536 := by
  induction s using Nat.strong_induction_on with
  | _ s ih =>
    unfold Checksum.foldCarry
    split
    · omega
    · exact ih (s / 65536 + s % 65536) (by omega)

lemma foldCarry_2DDF0 : Checksum.foldCarry 0x2DDF0 = 0xDDF2 := by
  unfold Checksum.foldCarry
  norm_num
  unfold Checksum.foldCarry
  norm_num

/-- C1: starting from a fresh Checksum, update(data, 8) on the byte
buffer 00 01 F2 03 F4 F5 F6 F7 followed by finalize() returns exactly
0x220D. -/
theorem checksum_s6_scenario :
    (Checksum.updateBytes ⟨0⟩
      (bufferOf [0x00, 0x01, 0xF2, 0x03, 0xF4, 0xF5, 0xF6, 0xF7]) 8).map
      Checksum.finalize = some 0x220D := by
  have h : Checksum.updateBytes ⟨0⟩
      (bufferOf [0x00, 0x01, 0xF2, 0x03, 0xF4, 0xF5, 0xF6, 0xF7]) 8 =
      some ⟨0x2DDF0⟩ := by decide
  rw [h, Option.map_some', Checksum.finalize_eq]
  rw [show (⟨0x2DDF0⟩ : Checksum).state = 0x2DDF0 from rfl]
  rw [foldCarry_2DDF0]

/-- C4: for every sequence of update(uint16_t word) calls with plain
integer sum s, finalize() returns the bitwise NOT, truncated to 16 bits,
of the end-around-carry fold of s (the fold result itself lies below
2^16, so the truncated NOT is 65535 minus it). -/
theorem checksum_finalize_ones_complement (ws : List Nat)
    (h : ∀ w ∈ ws, w < 65536) :
    (ws.foldl Checksum.update ⟨0⟩).finalize =
      65535 - Checksum.foldCarry ws.sum ∧ Checksum.foldCarry ws.sum < 65536 := by
  refine ⟨?_, foldCarry_lt _⟩
  rw [Checksum.finalize_eq, foldl_update_state ws 0 h, Nat.zero_add]

theorem checksum_finalize_ones_complement_witness :
    (∀ w ∈ [(1 : Nat), 62035], w < 65536) ∧
    (([(1 : Nat), 62035].foldl Checksum.update ⟨0⟩).finalize =
        65535 - Checksum.foldCarry ([(1 : Nat), 62035].sum) ∧
      Checksum.foldCarry ([(1 : Nat), 62035].sum) < 65536) :=
  ⟨by decide, checksum_finalize_ones_complement [1, 62035] (by decide)⟩

/-- A 3-byte buffer 01 02 03 with one extra mapped byte 99 at offset -1,
standing for whatever data happens to precede the buffer in memory. -/
def memOddProbe : Checksum.Mem :=
  fun j => if j = -1 then some 0x99 else bufferOf [0x01, 0x02, 0x03] j

/-- C2 (code bug witness): on the odd-size buffer 01 02 03 the claim
(and the spec) say the accumulator gains
(01 shl 8 or 02) + (03 shl 8) = 0x0402; the code instead gains 0x9D04,
because it decrements the iterator rather than the size: it first adds
data[1] shl 8 = 0x0200, then pairs (data[-1], data[0]) = 0x9901 and
(data[1], data[2]) = 0x0203. -/
theorem checksum_odd_update_misreads :
    Checksum.updateBytes ⟨0⟩ memOddProbe 3 = some ⟨0x9D04⟩ ∧
    Checksum.updateBytes ⟨0⟩ memOddProbe 3 ≠ some ⟨0x0402⟩ := by
  constructor
  · decide
  · decide

/-- C9 (code bug witness): update on a buffer of odd size 1 dereferences
offset -1, which is outside [0, size); with Option-valued indexing the
embedding returns none instead of completing. -/
theorem checksum_update_reads_out_of_bounds :
    Checksum.updateBytes ⟨0⟩ (bufferOf [0xAB]) 1 = none := by decide

/-!
Part 2: the thor kernel data types
(src/unnamed/part_000, kernel.hpp-style header, and src/unnamed/part_001,
the usermem.hpp virtual memory header).
-/

namespace Thor

/-- Embedding of enum Error from src/unnamed/part_000 (lines 42-45): the
enumeration has exactly the two enumerators kErrSuccess and
kErrBufferTooSmall. -/
inductive Error where
  | kErrSuccess
  | kErrBufferTooSmall
  deriving DecidableEq, Fintype

/-- Embedding of enum ManagedSpace::LoadState from src/unnamed/part_001:
kStateMissing, kStateLoading, kStateLoaded. -/
inductive LoadState where
  | kStateMissing
  | kStateLoading
  | kStateLoaded
  deriving DecidableEq, Fintype

/-- Embedding of struct InitiateBase: a work node carrying the requested
offset and length, the result error, and the progress counter.  The
worklet pointer used to post the completion is not representable in a
shallow embedding and is omitted. -/
structure InitiateBase where
  offset : Nat
  length : Nat
  error : Error
  progress : Nat
  deriving DecidableEq

/-- Embedding of struct ManageBase: a work node carrying the result
error, offset and size.  The worklet pointer is omitted as above. -/
structure ManageBase where
  error : Error
  offset : Nat
  size : Nat
  deriving DecidableEq

/-- Embedding of struct ManagedSpace from src/unnamed/part_001
(lines 268-292): the physical-page vector, the parallel load-state
vector, the three InitiateBase queues and the two ManageBase queues.
The frigg::TicketLock mutex guards this state in the source; a lock has
no observable content in a sequential shallow embedding and is omitted. -/
structure ManagedSpace where
  physicalPages : List Nat
  loadState : List LoadState
  initiateLoadQueue : List InitiateBase
  pendingLoadQueue : List InitiateBase
  completedLoadQueue : List InitiateBase
  submittedManageQueue : List ManageBase
  completedManageQueue : List ManageBase
  deriving DecidableEq

/-- Modelled from the spec: the ManagedSpace constructor body is not
under src/.  The spec says a ManagedSpace of the given length has one
physical-page slot and one parallel load-state entry per page, every
page initially Missing, and empty queues. -/
def ManagedSpace.init (length : Nat) : ManagedSpace :=
  { physicalPages := List.replicate (length / 4096) 0
  , loadState := List.replicate (length / 4096) .kStateMissing
  , initiateLoadQueue := []
  , pendingLoadQueue := []
  , completedLoadQueue := []
  , submittedManageQueue := []
  , completedManageQueue := [] }

end Thor

/-- C3 (counterexample): the Error enumeration cannot represent seven
distinct error kinds; no injection of seven conditions into it exists,
since it has exactly two values. -/
theorem thor_error_cannot_distinguish_seven :
    (¬ ∃ f : Fin 7 → Thor.Error, Function.Injective f) ∧
    Fintype.card Thor.Error = 2 := by
  constructor
  · intro ⟨f, hf⟩
    have h7 := Fintype.card_le_of_injective f hf
    have h2 : Fintype.card Thor.Error = 2 := rfl
    rw [h2, Fintype.card_fin] at h7
    omega
  · rfl

/-- C3 (amended): the error result type distinguishes exactly the two
kinds Success and BufferTooSmall, as distinct values that exhaust the
enumeration. -/
theorem thor_error_exactly_two :
    Thor.Error.kErrSuccess ≠ Thor.Error.kErrBufferTooSmall ∧
    ∀ e : Thor.Error, e = Thor.Error.kErrSuccess ∨
      e = Thor.Error.kErrBufferTooSmall := by
  constructor
  · decide
  · intro e
    cases e
    · exact Or.inl rfl
    · exact Or.inr rfl

/-- C5: every ManagedSpace page slot load state is one of exactly the
three values Missing, Loading, Loaded (exhaustive and pairwise
distinct), the ManagedSpace state is determined by its physical-page
vector, parallel load-state vector, three InitiateBase queues and two
ManageBase queues, and a freshly constructed ManagedSpace has load-state
entries parallel to its page slots. -/
theorem managedspace_shape :
    (∀ s : Thor.LoadState, s = .kStateMissing ∨ s = .kStateLoading ∨
      s = .kStateLoaded) ∧
    (Thor.LoadState.kStateMissing ≠ .kStateLoading ∧
      Thor.LoadState.kStateLoading ≠ .kStateLoaded ∧
      Thor.LoadState.kStateMissing ≠ .kStateLoaded) ∧
    (∀ a b : Thor.ManagedSpace,
      a.physicalPages = b.physicalPages → a.loadState = b.loadState →
      a.initiateLoadQueue = b.initiateLoadQueue →
      a.pendingLoadQueue = b.pendingLoadQueue →
      a.completedLoadQueue = b.completedLoadQueue →
      a.submittedManageQueue = b.submittedManageQueue →
      a.completedManageQueue = b.completedManageQueue → a = b) ∧
    (∀ n : Nat, (Thor.ManagedSpace.init n).physicalPages.length =
      (Thor.ManagedSpace.init n).loadState.length) := by
  refine ⟨?_, by decide, ?_, ?_⟩
  · intro s
    cases s
    · exact Or.inl rfl
    · exact Or.inr (Or.inl rfl)
    · exact Or.inr (Or.inr rfl)
  · intro a b h1 h2 h3 h4 h5 h6 h7
    cases a
    cases b
    simp_all
  · intro n
    simp [Thor.ManagedSpace.init]

namespace Thor

/-- Embedding of struct CowBundle from src/unnamed/part_001
(lines 162-178): the two parent references _superRoot (weak reference to
the root VirtualView) and _superChain (shared reference to the parent
CowBundle), the window offset _superOffset, and the sparse radix trie
_pages mapping page indices to locally owned physical pages.  Shared
pointers are modelled as optional reference identifiers; the trie is a
sparse association list.  The TicketLock and the _copy scratch pointer
carry no sequential content and are omitted. -/
structure CowBundle where
  superRoot : Option Nat
  superChain : Option Nat
  superOffset : Int
  pages : List (Nat × Nat)
  deriving DecidableEq

/-- Modelled from the spec: the body of
CowBundle(SharedPtr of VirtualView view, ptrdiff_t offset, size_t size)
is not under src/.  The spec says this constructor stores the root view
as the parent and starts with no locally owned copies. -/
def CowBundle.ofView (view : Nat) (offset : Int) : CowBundle :=
  { superRoot := some view, superChain := none, superOffset := offset, pages := [] }

/-- Modelled from the spec: the body of
CowBundle(SharedPtr of CowBundle chain, ptrdiff_t offset, size_t size)
is not under src/.  The spec says this constructor stores the parent
CowBundle as the parent and starts with no locally owned copies. -/
def CowBundle.ofChain (chain : Nat) (offset : Int) : CowBundle :=
  { superRoot := none, superChain := some chain, superOffset := offset, pages := [] }

/-- Modelled from the spec: CowBundle::peekRange returns the locally
owned copy when one exists and null otherwise; it never consults the
parent and does not mutate the bundle. -/
def CowBundle.peekRange (c : CowBundle) (pageIndex : Nat) : Option Nat :=
  (c.pages.find? (fun p => p.1 = pageIndex)).map Prod.snd

/-- Modelled from the spec: the publishing step of CowBundle::fetchRange
(whose body is not under src/) copies the parent page into a freshly
allocated physical page and publishes it into the local map; the parent
references and the window offset are untouched. -/
def CowBundle.publishCopy (c : CowBundle) (pageIndex physical : Nat) : CowBundle :=
  { c with pages := (pageIndex, physical) :: c.pages }

/-- The parent-reference invariant of C6: exactly one of the two parent
variants is set. -/
def CowBundle.parentWellFormed (c : CowBundle) : Prop :=
  (c.superRoot.isSome = true ∧ c.superChain = none) ∨
  (c.superRoot = none ∧ c.superChain.isSome = true)

instance (c : CowBundle) : Decidable c.parentWellFormed := by
  unfold CowBundle.parentWellFormed
  infer_instance

end Thor

/-- C6: both CowBundle constructors establish the invariant that exactly
one parent reference is set (root view or parent chain, never both,
never neither), and the mutating fetch/publish step as well as the pure
peek preserve the parent references and the window offset. -/
theorem cowbundle_exactly_one_parent :
    (∀ v off, (Thor.CowBundle.ofView v off).parentWellFormed) ∧
    (∀ ch off, (Thor.CowBundle.ofChain ch off).parentWellFormed) ∧
    (∀ (c : Thor.CowBundle) (i p : Nat), c.parentWellFormed →
      ((c.publishCopy i p).parentWellFormed ∧
        (c.publishCopy i p).superRoot = c.superRoot ∧
        (c.publishCopy i p).superChain = c.superChain ∧
        (c.publishCopy i p).superOffset = c.superOffset)) := by
  refine ⟨?_, ?_, ?_⟩
  · intro v off
    exact Or.inl ⟨rfl, rfl⟩
  · intro ch off
    exact Or.inr ⟨rfl, rfl⟩
  · intro c i p h
    exact ⟨h, rfl, rfl, rfl⟩

theorem cowbundle_exactly_one_parent_witness :
    (Thor.CowBundle.ofView 7 0x1000).parentWellFormed ∧
    ((Thor.CowBundle.ofView 7 0x1000).publishCopy 3 0xA000).parentWellFormed :=
  ⟨cowbundle_exactly_one_parent.1 7 0x1000,
    (cowbundle_exactly_one_parent.2.2 (Thor.CowBundle.ofView 7 0x1000) 3 0xA000
      (cowbundle_exactly_one_parent.1 7 0x1000)).1⟩

namespace Thor

/-- Embedding of struct FaultNode from src/unnamed/part_001
(lines 348-374): the fault address, the fault flags and the resolution
flag.  The completion callback, the mapping pointer, the embedded
FetchNode and the bundle offset play no role in the resolution state and
are omitted.  The constructor FaultNode() initializes _resolved{false}. -/
structure FaultNode where
  address : Nat
  flags : Nat
  resolved : Bool
  deriving DecidableEq

/-- Embedding of the FaultNode() constructor: _resolved{false}; address
and flags are set later by handleFault, so they are parameters here. -/
def FaultNode.fresh (address flags : Nat) : FaultNode :=
  { address := address, flags := flags, resolved := false }

/-- A mapping interval of the mapping tree: base address and length
(struct Mapping, src/unnamed/part_001 lines 441-481, reduced to the
interval data the fault path consults). -/
structure MappingRec where
  address : Nat
  length : Nat
  deriving DecidableEq

/-- An address space as the fault path sees it: the mappings installed
in its mapping tree. -/
structure AddressSpace where
  mappings : List MappingRec
  deriving DecidableEq

/-- Modelled from the spec: the body of AddressSpace::handleFault is not
under src/.  The spec says: look up the covering mapping; if none,
complete with resolved = false; otherwise dispatch to the mapping fault
handler (passed here as a function, since the per-variant handlers are
also not under src/). -/
def AddressSpace.handleFault (s : AddressSpace)
    (dispatch : MappingRec → FaultNode → FaultNode)
    (address flags : Nat) (node : FaultNode) : FaultNode :=
  match s.mappings.find? (fun m =>
      decide (m.address ≤ address ∧ address < m.address + m.length)) with
  | none => { node with resolved := false }
  | some m => dispatch m { node with address := address, flags := flags }

end Thor

/-- C7: a freshly constructed FaultNode reports resolved() = false, and
handleFault on an address covered by no mapping completes the node with
resolved() = false, regardless of the dispatch behavior of the
per-mapping handlers. -/
theorem handlefault_unmapped_unresolved (s : Thor.AddressSpace)
    (dispatch : Thor.MappingRec → Thor.FaultNode → Thor.FaultNode)
    (address flags : Nat) (node : Thor.FaultNode)
    (h : ∀ m ∈ s.mappings,
      ¬ (m.address ≤ address ∧ address < m.address + m.length)) :
    (s.handleFault dispatch address flags node).resolved = false ∧
    ∀ a f : Nat, (Thor.FaultNode.fresh a f).resolved = false := by
  constructor
  · unfold Thor.AddressSpace.handleFault
    have hnone : s.mappings.find? (fun m =>
        decide (m.address ≤ address ∧ address < m.address + m.length)) = none := by
      rw [List.find?_eq_none]
      intro m hm
      simpa using h m hm
    rw [hnone]
  · intro a f
    rfl

theorem handlefault_unmapped_unresolved_witness :
    (∀ m ∈ (Thor.AddressSpace.mk [⟨0x1000, 0x1000⟩]).mappings,
      ¬ (m.address ≤ 0x5000 ∧ 0x5000 < m.address + m.length)) ∧
    ((Thor.AddressSpace.mk [⟨0x1000, 0x1000⟩]).handleFault
        (fun _ n => n) 0x5000 0 (Thor.FaultNode.fresh 0 0)).resolved = false :=
  ⟨by decide,
    (handlefault_unmapped_unresolved (Thor.AddressSpace.mk [⟨0x1000, 0x1000⟩])
      (fun _ n => n) 0x5000 0 (Thor.FaultNode.fresh 0 0) (by decide)).1⟩

theorem managedspace_shape_witness :
    Thor.ManagedSpace.init 4096 =
      { physicalPages := [0]
      , loadState := [.kStateMissing]
      , initiateLoadQueue := []
      , pendingLoadQueue := []
      , completedLoadQueue := []
      , submittedManageQueue := []
      , completedManageQueue := [] } :=
  managedspace_shape.2.2.1 _ _ rfl rfl rfl rfl rfl rfl rfl

/-!
Part 3: the HoleTree with its largest-hole augmentation
(struct Hole, src/unnamed/part_001 lines 402-423, and HoleAggregator,
lines 537-540).

The red-black tree itself lives in frigg/rbtree.hpp, which is not under
src/; following the spec, the tree is modelled as a binary search tree
keyed by address whose shape-changing operations (insertion, removal,
and the rebalancing rotations the red-black machinery performs) reapply
the aggregation rule to every rebuilt node.  Each node carries the
fields of struct Hole that the claim concerns: address, length, and the
largestHole augmentation.
-/

namespace Thor

/-- A HoleTree: either empty or a node with the Hole payload (address,
length) and the largestHole augmentation of struct Hole. -/
inductive HoleTree where
  | leaf
  | node (left : HoleTree) (address length largestHole : Nat) (right : HoleTree)
  deriving DecidableEq

/-- The largestHole value of a subtree, taking 0 for an absent child
(a fresh Hole is constructed with largestHole{0}). -/
def HoleTree.largest : HoleTree → Nat
  | .leaf => 0
  | .node _ _ _ lh _ => lh

/-- Modelled from the spec: bool HoleAggregator::aggregate(Hole *) is
declared in src/ but its body is not; the spec gives the rule
largest_hole(n) = max(length(n), largest_hole(left), largest_hole(right)),
reapplied to every node the tree rebuilds. -/
def HoleTree.aggregateNode (l : HoleTree) (address length : Nat) (r : HoleTree) :
    HoleTree :=
  .node l address length (max length (max l.largest r.largest)) r

/-- Embedding of bool HoleAggregator::check_invariant (declared in
src/unnamed/part_001 line 539): every node satisfies the aggregation
rule. -/
def HoleTree.checkInvariant : HoleTree → Bool
  | .leaf => true
  | .node l _ len lh r =>
    (lh == max len (max l.largest r.largest)) &&
      l.checkInvariant && r.checkInvariant

/-- Modelled from the spec: insertion keyed by address (HoleLess
compares addresses), reapplying aggregation along the rebuilt path. -/
def HoleTree.insert : HoleTree → Nat → Nat → HoleTree
  | .leaf, a, len => HoleTree.aggregateNode .leaf a len .leaf
  | .node l na nl _ r, a, len =>
    if a < na then HoleTree.aggregateNode (HoleTree.insert l a len) na nl r
    else HoleTree.aggregateNode l na nl (HoleTree.insert r a len)

/-- Modelled from the spec: a left rotation as performed by the
red-black rebalancing, reapplying aggregation to the two rebuilt
nodes. -/
def HoleTree.rotateLeft : HoleTree → HoleTree
  | .node l a len _ (.node rl ra rlen _ rr) =>
    HoleTree.aggregateNode (HoleTree.aggregateNode l a len rl) ra rlen rr
  | t => t

/-- Modelled from the spec: the mirror-image right rotation. -/
def HoleTree.rotateRight : HoleTree → HoleTree
  | .node (.node ll la llen _ lr) a len _ r =>
    HoleTree.aggregateNode ll la llen (HoleTree.aggregateNode lr a len r)
  | t => t

/-- Modelled from the spec: removal of the minimum node, returning the
remaining tree and the removed payload; the rebuilt spine is
re-aggregated. -/
def HoleTree.delMin : HoleTree → HoleTree × Option (Nat × Nat)
  | .leaf => (.leaf, none)
  | .node l a len _ r =>
    match HoleTree.delMin l with
    | (_, none) => (r, some (a, len))
    | (l2, some m) => (HoleTree.aggregateNode l2 a len r, some m)

/-- Modelled from the spec: removal of the node with the given address
(binary-search-tree erase, replacing a two-child node by its successor),
reapplying aggregation along the rebuilt path. -/
def HoleTree.erase : HoleTree → Nat → HoleTree
  | .leaf, _ => .leaf
  | .node l a len _ r, x =>
    if x < a then HoleTree.aggregateNode (HoleTree.erase l x) a len r
    else if a < x then HoleTree.aggregateNode l a len (HoleTree.erase r x)
    else
      match HoleTree.delMin r with
      | (_, none) => l
      | (r2, some (sa, slen)) => HoleTree.aggregateNode l sa slen r2

/-- The HoleTree states reachable from the empty tree by insertions,
removals and rebalancing rotations. -/
inductive HoleTree.Reachable : HoleTree → Prop
  | empty : HoleTree.Reachable .leaf
  | insert (t : HoleTree) (a len : Nat) :
      HoleTree.Reachable t → HoleTree.Reachable (t.insert a len)
  | erase (t : HoleTree) (x : Nat) :
      HoleTree.Reachable t → HoleTree.Reachable (t.erase x)
  | rotateLeft (t : HoleTree) :
      HoleTree.Reachable t → HoleTree.Reachable t.rotateLeft
  | rotateRight (t : HoleTree) :
      HoleTree.Reachable t → HoleTree.Reachable t.rotateRight

end Thor

lemma aggregateNode_check (l r : Thor.HoleTree) (a len : Nat)
    (hl : l.checkInvariant = true) (hr : r.checkInvariant = true) :
    (Thor.HoleTree.aggregateNode l a len r).checkInvariant = true := by
  simp [Thor.HoleTree.aggregateNode, Thor.HoleTree.checkInvariant, hl, hr]

lemma node_check_parts {l r : Thor.HoleTree} {a len lh : Nat}
    (h : (Thor.HoleTree.node l a len lh r).checkInvariant = true) :
    l.checkInvariant = true ∧ r.checkInvariant = true := by
  simp only [Thor.HoleTree.checkInvariant, Bool.and_eq_true] at h
  exact ⟨h.1.2, h.2⟩

lemma insert_check (t : Thor.HoleTree) (a len : Nat)
    (h : t.checkInvariant = true) :
    (t.insert a len).checkInvariant = true := by
  induction t with
  | leaf =>
    simp [Thor.HoleTree.insert, Thor.HoleTree.aggregateNode,
      Thor.HoleTree.checkInvariant]
  | node l na nl lh r ihl ihr =>
    obtain ⟨hl, hr⟩ := node_check_parts h
    simp only [Thor.HoleTree.insert]
    split
    · exact aggregateNode_check _ _ _ _ (ihl hl) hr
    · exact aggregateNode_check _ _ _ _ hl (ihr hr)

lemma delMin_check (t : Thor.HoleTree) (h : t.checkInvariant = true) :
    (Thor.HoleTree.delMin t).1.checkInvariant = true := by
  induction t with
  | leaf => simpa [Thor.HoleTree.delMin] using h
  | node l a len lh r ihl ihr =>
    obtain ⟨hl, hr⟩ := node_check_parts h
    simp only [Thor.HoleTree.delMin]
    cases hdm : Thor.HoleTree.delMin l with
    | mk l2 m =>
      cases m with
      | none => simpa using hr
      | some mm =>
        have hl2 : l2.checkInvariant = true := by
          have := ihl hl
          rw [hdm] at this
          exact this
        simpa using aggregateNode_check _ _ _ _ hl2 hr

lemma erase_check (t : Thor.HoleTree) (x : Nat)
    (h : t.checkInvariant = true) :
    (t.erase x).checkInvariant = true := by
  induction t with
  | leaf => simpa [Thor.HoleTree.erase] using h
  | node l a len lh r ihl ihr =>
    obtain ⟨hl, hr⟩ := node_check_parts h
    simp only [Thor.HoleTree.erase]
    split
    · exact aggregateNode_check _ _ _ _ (ihl hl) hr
    · split
      · exact aggregateNode_check _ _ _ _ hl (ihr hr)
      · cases hdm : Thor.HoleTree.delMin r with
        | mk r2 m =>
          cases m with
          | none => simpa using hl
          | some mm =>
            have hr2 : r2.checkInvariant = true := by
              have := delMin_check r hr
              rw [hdm] at this
              exact this
            cases mm with
            | mk sa slen => simpa using aggregateNode_check _ _ _ _ hl hr2

lemma rotateLeft_check (t : Thor.HoleTree) (h : t.checkInvariant = true) :
    t.rotateLeft.checkInvariant = true := by
  cases t with
  | leaf => exact h
  | node l a len lh r =>
    cases r with
    | leaf => simpa [Thor.HoleTree.rotateLeft] using h
    | node rl ra rlen rlh rr =>
      obtain ⟨hl, hr⟩ := node_check_parts h
      obtain ⟨hrl, hrr⟩ := node_check_parts hr
      simpa [Thor.HoleTree.rotateLeft] using
        aggregateNode_check _ _ _ _ (aggregateNode_check _ _ _ _ hl hrl) hrr

lemma rotateRight_check (t : Thor.HoleTree) (h : t.checkInvariant = true) :
    t.rotateRight.checkInvariant = true := by
  cases t with
  | leaf => exact h
  | node l a len lh r =>
    cases l with
    | leaf => simpa [Thor.HoleTree.rotateRight] using h
    | node ll la llen llh lr =>
      obtain ⟨hl, hr⟩ := node_check_parts h
      obtain ⟨hll, hlr⟩ := node_check_parts hl
      simpa [Thor.HoleTree.rotateRight] using
        aggregateNode_check _ _ _ _ hll (aggregateNode_check _ _ _ _ hlr hr)

/-- C8: in every HoleTree state reachable from the empty tree by
insertions, removals and rebalancing rotations, every node satisfies
largestHole = max(own length, largestHole(left), largestHole(right)),
with 0 for an absent child (the check_invariant predicate holds). -/
theorem holetree_largest_invariant (t : Thor.HoleTree)
    (h : Thor.HoleTree.Reachable t) : t.checkInvariant = true := by
  induction h with
  | empty => rfl
  | insert t a len _ ih => exact insert_check t a len ih
  | erase t x _ ih => exact erase_check t x ih
  | rotateLeft t _ ih => exact rotateLeft_check t ih
  | rotateRight t _ ih => exact rotateRight_check t ih

theorem holetree_largest_invariant_witness :
    Thor.HoleTree.Reachable
      ((Thor.HoleTree.leaf.insert 0x1000 0x2000).insert 0x8000 0x1000) ∧
    ((Thor.HoleTree.leaf.insert 0x1000 0x2000).insert 0x8000
      0x1000).checkInvariant = true :=
  ⟨.insert _ _ _ (.insert _ _ _ .empty),
    holetree_largest_invariant _ (.insert _ _ _ (.insert _ _ _ .empty))⟩

/-!
Part 4: the ld-server ELF loader, function readObject
(src/unnamed/part_001, second document), PT_LOAD segment processing.

The program header fields p_vaddr, p_memsz, p_offset, p_filesz are
Elf64 64-bit values and the segment arithmetic is performed on uintptr_t
and size_t, so every operation wraps modulo 2^64.
-/

/-- constexpr size_t kPageSize = 0x1000 in readObject. -/
def kPageSize : Nat := 0x1000

/-- The modulus of uintptr_t and size_t arithmetic, 2^64. -/
def M64 : Nat := 18446744073709551616

/-- Wrapping 64-bit subtraction on naturals. -/
def sub64 (a b : Nat) : Nat :=
  (a % M64 + (M64 - b % M64)) % M64

/-- Embedding of struct UniqueSegment together with its BaseSegment
fields (elfType, elfFlags, virtAddress, virtLength, fileDisplacement,
fileOffset, fileLength). -/
structure UniqueSegment where
  elfType : Nat
  elfFlags : Nat
  virtAddress : Nat
  virtLength : Nat
  fileDisplacement : Nat
  fileOffset : Nat
  fileLength : Nat
  deriving DecidableEq

/-- Embedding of the PT_LOAD branch of readObject:
virt_address = p_vaddr - p_vaddr % kPageSize;
virt_length = (p_vaddr + p_memsz) - virt_address, rounded up to the
next multiple of kPageSize when not already aligned; the recorded
UniqueSegment carries (p_type, p_flags, virt_address, virt_length,
p_vaddr - virt_address, p_offset, p_filesz).  All arithmetic wraps
modulo 2^64 as in the source; elfType is PT_LOAD = 1. -/
def readObjectLoadSegment (p_flags p_vaddr p_memsz p_offset p_filesz : Nat) :
    UniqueSegment :=
  let virt_address := sub64 p_vaddr (p_vaddr % kPageSize)
  let vl0 := sub64 ((p_vaddr + p_memsz) % M64) virt_address
  let virt_length :=
    if vl0 % kPageSize ≠ 0 then (vl0 + (kPageSize - vl0 % kPageSize)) % M64
    else vl0
  { elfType := 1
  , elfFlags := p_flags
  , virtAddress := virt_address
  , virtLength := virt_length
  , fileDisplacement := sub64 p_vaddr virt_address
  , fileOffset := p_offset
  , fileLength := p_filesz }

/-- C10 (counterexample): for the PT_LOAD header p_vaddr = 0,
p_memsz = 2^64 - 1 (p_memsz > 0), the computed virt_length wraps to 0,
so the recorded page-aligned window does not cover the loaded
interval. -/
theorem readobject_segment_wraps :
    (readObjectLoadSegment 6 0 (M64 - 1) 0 0).virtLength = 0 ∧
    (readObjectLoadSegment 6 0 (M64 - 1) 0 0).virtAddress +
      (readObjectLoadSegment 6 0 (M64 - 1) 0 0).virtLength <
      0 + (M64 - 1) := by
  constructor
  · decide
  · decide

/-- C10 (amended): for every PT_LOAD program header with p_memsz > 0
whose end p_vaddr + p_memsz stays at most 2^64 - 0x1000 (so the
page-aligned end does not wrap the 64-bit address space), the recorded
UniqueSegment satisfies virtAddress = p_vaddr - p_vaddr % 0x1000,
virtLength is a multiple of 0x1000,
virtAddress + virtLength ≥ p_vaddr + p_memsz, and
fileDisplacement = p_vaddr - virtAddress. -/
theorem readobject_segment_covers (p_flags p_vaddr p_memsz p_offset p_filesz : Nat)
    (hv : p_vaddr < M64) (hm : 0 < p_memsz)
    (hend : p_vaddr + p_memsz ≤ M64 - kPageSize) :
    (readObjectLoadSegment p_flags p_vaddr p_memsz p_offset p_filesz).virtAddress =
        p_vaddr - p_vaddr % kPageSize ∧
    (readObjectLoadSegment p_flags p_vaddr p_memsz p_offset
        p_filesz).virtLength % kPageSize = 0 ∧
    p_vaddr + p_memsz ≤
      (readObjectLoadSegment p_flags p_vaddr p_memsz p_offset
          p_filesz).virtAddress +
        (readObjectLoadSegment p_flags p_vaddr p_memsz p_offset
          p_filesz).virtLength ∧
    (readObjectLoadSegment p_flags p_vaddr p_memsz p_offset
        p_filesz).fileDisplacement =
      p_vaddr -
        (readObjectLoadSegment p_flags p_vaddr p_memsz p_offset
          p_filesz).virtAddress := by
  simp only [M64, kPageSize] at hv hend
  simp only [readObjectLoadSegment, sub64, kPageSize, M64]
  refine ⟨by omega, ?_, ?_, by omega⟩ <;> split <;> omega

theorem readobject_segment_covers_witness :
    ((0x12345 : Nat) < M64 ∧ (0 : Nat) < 0x2000 ∧
      (0x12345 : Nat) + 0x2000 ≤ M64 - kPageSize) ∧
    ((readObjectLoadSegment 6 0x12345 0x2000 0x345 0x1800).virtAddress =
        0x12345 - 0x12345 % kPageSize ∧
      (readObjectLoadSegment 6 0x12345 0x2000 0x345
          0x1800).virtLength % kPageSize = 0 ∧
      (0x12345 : Nat) + 0x2000 ≤
        (readObjectLoadSegment 6 0x12345 0x2000 0x345 0x1800).virtAddress +
          (readObjectLoadSegment 6 0x12345 0x2000 0x345 0x1800).virtLength ∧
      (readObjectLoadSegment 6 0x12345 0x2000 0x345 0x1800).fileDisplacement =
        0x12345 -
          (readObjectLoadSegment 6 0x12345 0x2000 0x345 0x1800).virtAddress) :=
  ⟨⟨by decide, by decide, by decide⟩,
    readobject_segment_covers 6 0x12345 0x2000 0x345 0x1800
      (by decide) (by decide) (by decide)⟩
